import Mathlib

/-!
Shallow embedding of the gpt-players repository (src/botplayers/agent.py,
src/botplayers/function.py, src/app/memory_tests/simple.py) together with
theorems settling the frozen claims about it.

Conventions of the embedding:
* Python dicts with string keys are association lists (in insertion order);
  `pyDictSet` is Python dict assignment (overwrite in place, else append).
* A Python value that may be a missing key, None, or a string is a `StrField`.
* Mutation of an object field becomes explicit state passing; where object
  identity itself is the subject of a claim (class-level default objects),
  a small heap of addressed list/dict objects is used instead.
* External boundaries (the OpenAI streaming service, json.loads/json.dumps,
  the regex engine, the YAML files on disk) are oracle parameters.
-/

namespace BotPlayers

/-- A dict field that can be a missing key, a JSON/Python null, or a string. -/
inductive StrField where
  | absent
  | null
  | str (s : String)
deriving DecidableEq, Repr

/-- The function_call object carried by an assistant message, as read by
Agent.think_and_act and Agent._call_function: a name and an arguments field. -/
structure FunctionCall where
  name : String
  arguments : StrField
deriving DecidableEq, Repr

/-- A chat message as stored in Agent.memory: keys role, content, optional
function_call, optional name (present on function-role messages). -/
structure Message where
  role : String
  content : String
  function_call : Option FunctionCall
  name : Option String
deriving DecidableEq, Repr

/-- The value-level view of an Agent object: the instance attributes that
Agent.__init__ (src/botplayers/agent.py lines 171-182) assigns. -/
structure Agent where
  name : String
  engine : String
  role : String
  memory : List Message
  function_call_repeats : Nat
  ignore_none_function_messages : Bool
deriving DecidableEq, Repr

/-- Python values passed as arguments to dispatched callable functions.
Float literals are carried as their source text: the program never computes
with them, it only stores and forwards them. -/
inductive PyVal where
  | vstr (s : String)
  | vint (n : Int)
  | vbool (b : Bool)
  | vfloatLit (lit : String)
  | vnone
  | vlist (l : List String)
  | vagent (a : Agent)
deriving DecidableEq, Repr

/-- The possible results of Agent._call_function: the Python None that a
void function produced, a function response value, or the structured
error dict that the registry check and the except-branch produce. -/
inductive CallResult where
  | rnone
  | rval (v : PyVal)
  | rerror (msg : String)
deriving DecidableEq, Repr

/-- One entry of CALLABLE_FUNCTION_TABLE as used at dispatch time: the
function body (an oracle that may raise, modelled with Except) and the
three reserved-parameter flags recorded at registration. -/
structure FunctionInfo where
  func : List (String × PyVal) → Except String (Option PyVal)
  has_world_param : Bool
  has_agent_param : Bool
  has_agent_name_param : Bool

/-- Python dict assignment d[k] = v on an insertion-ordered dict:
overwrite the existing entry in place, otherwise append at the end. -/
def pyDictSet {α : Type} (d : List (String × α)) (k : String) (v : α) :
    List (String × α) :=
  if d.any (fun kv => kv.1 == k) then
    d.map (fun kv => if kv.1 = k then (kv.1, v) else kv)
  else d ++ [(k, v)]

/-- Plain concatenation of a list of strings, in order. -/
def strJoin : List String → String
  | [] => ""
  | s :: rest => s ++ strJoin rest

/-- Embeds Agent.__init__ (src/botplayers/agent.py lines 171-182): the
argument order mirrors the Python signature (name, prompt, engine, role,
function_call_repeats, ignore_none_function_messages). Memory starts with
the system message holding the prompt. -/
def agent_init (name prompt engine role : String)
    (function_call_repeats : Nat) (ignore_none_function_messages : Bool) :
    Agent :=
  { name := name
    engine := engine
    role := role
    memory := [{ role := "system", content := prompt,
                 function_call := none, name := none }]
    function_call_repeats := function_call_repeats
    ignore_none_function_messages := ignore_none_function_messages }

/-- Embeds Agent.receive_message (src/botplayers/agent.py lines 245-256).
The first component is the mutated self (the message appended to memory);
the second component is the Python return value of the method: the body
ends without a return statement, so the call evaluates to None,
modelled as `none`. -/
def receive_message (a : Agent) (message : Message) (_print_output : Bool) :
    Agent × Option Agent :=
  ({ a with memory := a.memory ++ [message] }, none)

/-- Modelled from the spec: Agent.receive_messages is called by _load_bot
(src/botplayers/function.py line 21) but is absent from the Agent class in
src/botplayers/agent.py. Per spec section 4.4 it appends an ordered sequence
of messages, applying the per-message echo behavior, and returns the agent.
The second component is the list of contents echoed to the console. -/
def receive_messages (a : Agent) (messages : List Message)
    (print_output : Bool) : Agent × List String :=
  ({ a with memory := a.memory ++ messages },
   if print_output then messages.map Message.content else [])

/-- Embeds the arguments handling of Agent._call_function
(src/botplayers/agent.py lines 221-225): reading a missing key raises
KeyError, whose str() rendering is the key in single quotes; a None value
is replaced by an empty dict; a string value goes through json.loads
(the oracle `json_loads`), which may raise. -/
def parse_arguments
    (json_loads : String → Except String (List (String × PyVal)))
    (args : StrField) : Except String (List (String × PyVal)) :=
  match args with
  | StrField.absent => Except.error "\u0027arguments\u0027"
  | StrField.null => Except.ok []
  | StrField.str s => json_loads s

/-- Embeds the flagged injections of Agent._call_function
(src/botplayers/agent.py lines 228-233): WORLD_PARAM_NAME is the literal
string self, AGENT_PARAM_NAME is agent, AGENT_NAME_PARAM_NAME is
agent_name. -/
def inject_args (fi : FunctionInfo) (self_ : Agent) (world : PyVal)
    (function_args : List (String × PyVal)) : List (String × PyVal) :=
  let fa0 := if fi.has_world_param
    then pyDictSet function_args "self" world else function_args
  let fa1 := if fi.has_agent_param
    then pyDictSet fa0 "agent" (PyVal.vagent self_) else fa0
  if fi.has_agent_name_param
    then pyDictSet fa1 "agent_name" (PyVal.vstr self_.name) else fa1

/-- The try-block of Agent._call_function (src/botplayers/agent.py lines
212-240) for an already-looked-up registry entry: parse the arguments,
inject the flagged values, invoke the function body. Any of the three
steps may raise (Except.error). -/
def call_function_try (fi : FunctionInfo)
    (json_loads : String → Except String (List (String × PyVal)))
    (self_ : Agent) (world : PyVal) (fc : FunctionCall) :
    Except String (Option PyVal) :=
  match parse_arguments json_loads fc.arguments with
  | Except.error e => Except.error e
  | Except.ok function_args =>
      fi.func (inject_args fi self_ world function_args)

/-- Folds the outcome of the try-block into the value _call_function
returns: a raised exception becomes the structured error dict of the
except-branch (lines 241-243), a None response is returned as None
(lines 236-237), anything else is returned as is. -/
def to_call_result (r : Except String (Option PyVal)) : CallResult :=
  match r with
  | Except.error e => CallResult.rerror e
  | Except.ok none => CallResult.rnone
  | Except.ok (some v) => CallResult.rval v

/-- Embeds Agent._call_function (src/botplayers/agent.py lines 203-243):
the registry miss produces the structured error dict before the try-block;
otherwise the try-block runs with the catch-all except converting any
exception into a structured error dict. -/
def call_function (table : List (String × FunctionInfo))
    (json_loads : String → Except String (List (String × PyVal)))
    (self_ : Agent) (world : PyVal) (fc : FunctionCall) : CallResult :=
  match List.lookup fc.name table with
  | none => CallResult.rerror
      ("\"" ++ fc.name ++ "\" is not a callable function.")
  | some fi => to_call_result (call_function_try fi json_loads self_ world fc)

/-- Embeds the loop body of Agent.think_and_act (src/botplayers/agent.py
lines 292-335). `oracle k` is the message that stream_chat_completion
returns for the k-th completion request of this call (the service
boundary); `dumps` is the json.dumps oracle. The result is the final
agent state and the number of completion requests issued. -/
def think_and_act_loop (table : List (String × FunctionInfo))
    (json_loads : String → Except String (List (String × PyVal)))
    (dumps : CallResult → String) (world : PyVal)
    (oracle : Nat → Message) : Nat → Nat → Agent → Agent × Nat
  | 0, k, a => (a, k)
  | n + 1, k, a =>
    let new_message := oracle k
    let k1 := k + 1
    match new_message.function_call with
    | some fc =>
        let a1 : Agent := { a with memory := a.memory ++ [new_message] }
        let function_response := call_function table json_loads a1 world fc
        let function_response := match function_response with
          | CallResult.rnone => CallResult.rval (PyVal.vstr "done")
          | r => r
        let a2 : Agent := { a1 with memory := a1.memory ++
          [{ role := "function", content := dumps function_response,
             function_call := none, name := some fc.name }] }
        think_and_act_loop table json_loads dumps world oracle n k1 a2
    | none =>
        let a1 : Agent := if a.ignore_none_function_messages then a
          else { a with memory := a.memory ++ [new_message] }
        (a1, k1)

/-- Embeds Agent.think_and_act: up to function_call_repeats iterations,
starting from zero completion requests issued. -/
def think_and_act (table : List (String × FunctionInfo))
    (json_loads : String → Except String (List (String × PyVal)))
    (dumps : CallResult → String) (world : PyVal)
    (oracle : Nat → Message) (a : Agent) : Agent × Nat :=
  think_and_act_loop table json_loads dumps world oracle
    a.function_call_repeats 0 a

/-- One incremental delta of the streamed response
(src/botplayers/agent.py lines 117-135): it may carry a role, a
function_call fragment (a small dict of string fields), and a content
fragment (whose key may be missing, or hold None, or hold a string). -/
structure Delta where
  role : Option String
  function_call : Option (List (String × String))
  content : StrField
deriving DecidableEq, Repr

/-- The accumulation state of stream_chat_completion: role, content, and
the function_call dict built up across deltas. -/
structure StreamAcc where
  role : String
  content : String
  function_call : List (String × String)
deriving DecidableEq, Repr

/-- One step of the function_call accumulation
(src/botplayers/agent.py lines 124-128): a key not yet present is set,
an already-present key has the fragment concatenated onto it. -/
def fcUpdate (fc : List (String × String)) (key val : String) :
    List (String × String) :=
  if fc.any (fun kv => kv.1 == key) then
    fc.map (fun kv => if kv.1 = key then (kv.1, kv.2 ++ val) else kv)
  else fc ++ [(key, val)]

/-- Processing of one delta (src/botplayers/agent.py lines 119-135), in
source order: role capture, function_call accumulation, then the content
step with its skip condition
(len(content) == 0 and fragment == two newlines) or (fragment is None). -/
def processDelta (acc : StreamAcc) (delta : Delta) : StreamAcc :=
  let acc1 := match delta.role with
    | some r => { acc with role := r }
    | none => acc
  let acc2 := match delta.function_call with
    | some kvs =>
        let fc2 := kvs.foldl (fun f kv => fcUpdate f kv.1 kv.2)
          acc1.function_call
        { acc1 with function_call := fc2 }
    | none => acc1
  match delta.content with
  | StrField.absent => acc2
  | StrField.null => acc2
  | StrField.str c =>
      if acc2.content.length = 0 ∧ c = "\n\n" then acc2
      else { acc2 with content := acc2.content ++ c }

/-- The message object stream_chat_completion returns: role, content, and
the function_call dict only when non-empty (lines 140-145). -/
structure StreamMessage where
  role : String
  content : String
  function_call : Option (List (String × String))
deriving DecidableEq, Repr

/-- The nested fold of stream_chat_completion over the response: chunks,
and within each chunk the deltas of its choices (lines 117-135). -/
def stream_fold (resp : List (List Delta)) : StreamAcc :=
  resp.foldl (fun acc choices => choices.foldl processDelta acc)
    { role := "", content := "", function_call := [] }

/-- Embeds stream_chat_completion (src/botplayers/agent.py lines 107-145)
applied to a streamed response, the service boundary being the list of
chunks (each a list of choice deltas). -/
def stream_chat_completion (resp : List (List Delta)) : StreamMessage :=
  let acc := stream_fold resp
  { role := acc.role
    content := acc.content
    function_call := if acc.function_call.length > 0
      then some acc.function_call else none }

/-- The content fragment a delta contributes: the string its content key
holds, when that key is present and not None. -/
def contentSel (d : Delta) : Option String :=
  match d.content with
  | StrField.str c => some c
  | _ => none

/-- The content fragments of a delta sequence, in order: the string the
content key holds, for every delta where that key is present and not None. -/
def contentFrags (ds : List Delta) : List String :=
  ds.filterMap contentSel

/-- All function_call fragment pairs of a delta sequence, flattened in
order. -/
def fcItems (ds : List Delta) : List (String × String) :=
  (ds.map (fun d => d.function_call.getD [])).flatten

/-- The fragments contributed to one function_call field, in order. -/
def fcVals (ds : List Delta) (k : String) : List String :=
  ((fcItems ds).filter (fun kv => kv.1 == k)).map (fun kv => kv.2)

/-- Reads a field of the assembled function_call of a returned message. -/
def fcField (m : StreamMessage) (k : String) : Option String :=
  match m.function_call with
  | none => none
  | some l => List.lookup k l

/-- The content accumulation alone, as a recursion over the content
fragments (the skip condition of lines 131-132 restricted to content). -/
def contentFold (acc : String) : List String → String
  | [] => acc
  | c :: cs =>
      if acc.length = 0 ∧ c = "\n\n" then contentFold acc cs
      else contentFold (acc ++ c) cs

/-- Spec-side description of the accumulated content: everything from the
first fragment that is neither empty nor the two-newline token onward is
concatenated; the leading run of empty and two-newline fragments
contributes nothing (empty fragments never contribute, and a two-newline
fragment is dropped exactly when it arrives before any content). -/
def spec_content (frs : List String) : String :=
  strJoin (frs.drop (frs.findIdx (fun c => !(c == "" || c == "\n\n"))))

/-- Spec-side description of one assembled function_call field: absent
when no fragment named it, else the in-order concatenation of its
fragments. -/
def spec_fc_field (ds : List Delta) (k : String) : Option String :=
  match fcVals ds k with
  | [] => none
  | vs => some (strJoin vs)

/-- A Python type annotation as seen by agent_callable: one of the four
mapped built-in types, or some other type (carried by a tag). A parameter
without an annotation has `none` here (inspect.Parameter.empty). -/
inductive PyAnn where
  | astr
  | aint
  | afloat
  | abool
  | aother (tag : String)
deriving DecidableEq, Repr

/-- One declared parameter of a registered function: its name, whether it
has a default value (parameter.default is not inspect.Parameter.empty),
and its type annotation if any. -/
structure PyParam where
  name : String
  has_default : Bool
  ann : Option PyAnn
deriving DecidableEq, Repr

/-- A Python function as reflected over by agent_callable: its declared
name, its ordered parameters, and its docstring if any. -/
structure PyFunction where
  fname : String
  params : List PyParam
  doc : Option String
deriving DecidableEq, Repr

/-- The three reserved binding parameter names
(src/botplayers/agent.py lines 9-11). -/
def reserved_names : List String := ["self", "agent", "agent_name"]

/-- parameters_clean (src/botplayers/agent.py lines 37-39): every declared
parameter whose name is not reserved, in declaration order. -/
def parameters_clean (ps : List PyParam) : List PyParam :=
  ps.filter (fun p => !(reserved_names.contains p.name))

/-- required_parameters (src/botplayers/agent.py lines 41-44): the clean
parameters without a default value, in order. -/
def required_parameters (ps : List PyParam) : List String :=
  ((parameters_clean ps).filter (fun p => !p.has_default)).map PyParam.name

/-- The type_annotation_to_json_schema_type dict lookup
(src/botplayers/agent.py lines 48-53): the four mapped types hit,
anything else misses (the .get default applies). -/
def annToJsonType : PyAnn → Option String
  | PyAnn.astr => some "string"
  | PyAnn.aint => some "integer"
  | PyAnn.afloat => some "number"
  | PyAnn.abool => some "boolean"
  | PyAnn.aother _ => none

/-- The per-parameter step of the json_schema_types loop
(src/botplayers/agent.py lines 54-58): an annotated parameter gets an
entry with the mapped type (default string), an unannotated one gets no
entry. -/
def jsEntry (p : PyParam) : Option (String × String) :=
  match p.ann with
  | some a => some (p.name, (annToJsonType a).getD "string")
  | none => none

/-- json_schema_types (src/botplayers/agent.py lines 54-58): a dict with
an entry for each annotated clean parameter. -/
def json_schema_types (ps_clean : List PyParam) : List (String × String) :=
  ps_clean.filterMap jsEntry

/-- One properties entry of the generated schema: the JSON type and the
extracted description. -/
structure PropEntry where
  type : String
  description : String
deriving DecidableEq, Repr

/-- The registered func_sig (src/botplayers/agent.py lines 82-95). -/
structure FuncSig where
  name : String
  description : String
  properties : List (String × PropEntry)
  required : List String
deriving DecidableEq, Repr

/-- The function-description extraction (src/botplayers/agent.py lines
61-79): membership of the Args:/Returns: markers is expressed through
splitOn (a marker occurs in the doc iff splitting on it yields more than
one part, and the text before it is the first part), then every line is
trimmed and blank lines are removed. -/
def function_description_of (doc : String) : String :=
  let args_parts := doc.splitOn "Args:"
  let ret_parts := doc.splitOn "Returns:"
  let fd := if args_parts.length > 1 then (args_parts.headD "").trim
    else if ret_parts.length > 1 then (ret_parts.headD "").trim
    else doc.trim
  String.intercalate "\n"
    (((fd.splitOn "\n").map String.trim).filter (fun line => line.length > 0))

/-- Embeds the schema construction of agent_callable.__call__
(src/botplayers/agent.py lines 28-95). `rsearch pat doc` is the regex
oracle for re.search: the first captured group of pattern pat in doc, if
any (the per-parameter description lines); the captured group is stripped
as in the source. -/
def agent_callable_sig (rsearch : String → String → Option String)
    (f : PyFunction) : FuncSig :=
  let doc := f.doc.getD ""
  let ps_clean := parameters_clean f.params
  let jtypes := json_schema_types ps_clean
  let parameter_descriptions : List (String × String) :=
    ps_clean.filterMap (fun p =>
      match rsearch (p.name ++ ":(.*)") doc with
      | some g => some (p.name, g.trim)
      | none => none)
  { name := f.fname
    description := function_description_of doc
    properties := ps_clean.map (fun p =>
      (p.name,
       { type := (List.lookup p.name jtypes).getD "string"
         description := (List.lookup p.name parameter_descriptions).getD "" }))
    required := required_parameters f.params }

/-- Spec-side JSON type assignment, following the claim text: string for a
text annotation, integer for a whole-number annotation, number for a
floating-number annotation, boolean for a boolean annotation, and string
for any other or absent annotation. -/
def claimJsonType : Option PyAnn → String
  | some PyAnn.astr => "string"
  | some PyAnn.aint => "integer"
  | some PyAnn.afloat => "number"
  | some PyAnn.abool => "boolean"
  | some (PyAnn.aother _) => "string"
  | none => "string"

/-- Database.info_list (src/app/memory_tests/simple.py lines 9-17). -/
def info_list : List String :=
  ["Alice is born in 1990.",
   "Bob is born in 1991.",
   "David is born in 1995.",
   "Alice is in Kansas.",
   "Bob is in New York.",
   "David is in California.",
   "Alice likes David."]

/-- Database.num_confirms (src/app/memory_tests/simple.py line 19). -/
def num_confirms : Nat := 5

/-- An affirmative probe response: content, lower-cased, begins with y
(the .lower().startswith pattern of simple.py lines 39 and 56). -/
def yesVote (s : String) : Bool := s.toLower.startsWith "y"

/-- The number of affirmative answers among the num_confirms probe
responses an oracle gives for one question index. -/
def yesCount (resp : Nat → Nat → String) (idx : Nat) : Nat :=
  ((List.range num_confirms).map (fun j => yesVote (resp idx j))).count true

/-- Embeds the fact loop of Database.review_info (src/app/memory_tests/
simple.py lines 27-62) over the enumerated fact list. The avatar
sub-conversations are the LLM boundary: `useResp idx j` is the final
message content of the j-th usefulness probe for the fact at idx, and
`sufResp idx q` that of the q-th sufficiency probe after accepting the
fact at idx (the probe prompts, which only shape those responses, live
behind the oracle). `lastIdx` is len(info_list) - 1. -/
def review_loop (useResp sufResp : Nat → Nat → String) (lastIdx : Nat) :
    List (Nat × String) → List String → List String
  | [], useful_info => useful_info
  | (idx, info) :: rest, useful_info =>
    let results := (List.range num_confirms).map
      (fun j => yesVote (useResp idx j))
    if num_confirms / 2 + 1 ≤ results.count true then
      let useful_info2 := useful_info ++ [info]
      if idx < lastIdx then
        let results2 := (List.range num_confirms).map
          (fun q => yesVote (sufResp idx q))
        if num_confirms / 2 + 1 ≤ results2.count true then useful_info2
        else review_loop useResp sufResp lastIdx rest useful_info2
      else review_loop useResp sufResp lastIdx rest useful_info2
    else review_loop useResp sufResp lastIdx rest useful_info

/-- Embeds Database.review_info: iterate the enumerated fact list with an
empty accumulator. -/
def review_info (useResp sufResp : Nat → Nat → String) : List String :=
  review_loop useResp sufResp (info_list.length - 1) info_list.enum []

/-- The acceptance test for the fact at idx: at least
floor(num_confirms/2) + 1 affirmative usefulness probes. -/
def acceptedFact (useResp : Nat → Nat → String) (idx : Nat) : Bool :=
  decide (num_confirms / 2 + 1 ≤ yesCount useResp idx)

/-- Whether reviewing stops right after the fact at idx: the fact was
accepted, it is not the last one, and the sufficiency vote also reaches
the majority threshold (the break at simple.py lines 59-60). -/
def stopsAfter (useResp sufResp : Nat → Nat → String) (lastIdx idx : Nat) :
    Bool :=
  acceptedFact useResp idx && decide (idx < lastIdx)
    && decide (num_confirms / 2 + 1 ≤ yesCount sufResp idx)

/-- The facts review_loop appends, described entry by entry: an accepted
fact is appended, and cuts the rest iff its sufficiency vote stops the
review. -/
def selected (useResp sufResp : Nat → Nat → String) (lastIdx : Nat) :
    List (Nat × String) → List String
  | [] => []
  | (idx, info) :: rest =>
    if acceptedFact useResp idx then
      if stopsAfter useResp sufResp lastIdx idx then [info]
      else info :: selected useResp sufResp lastIdx rest
    else selected useResp sufResp lastIdx rest

/-- The parsed content of one persona definition file: the priming
messages that parse_experience_data produces and the template/user text of the raw document (src/botplayers/function.py lines 15-16 and 25). -/
structure ExpFile where
  exp_data : List Message
  template_user : String
deriving DecidableEq, Repr

/-- The process-wide BOTS cache (src/botplayers/function.py line 8). -/
abbrev BotCache : Type := List (String × (Agent × String))

/-- Modelled from the spec: the Agent construction performed by _load_bot
(src/botplayers/function.py lines 17-21) passes no prompt, and chains
receive_messages; the Agent class in src/botplayers/agent.py has neither
an optional prompt nor receive_messages, so this constructor variant
follows spec section 4.7: a dedicated agent whose memory is primed solely
with the parsed messages, with function_call_repeats = 1 and
ignore_none_function_messages = false as passed at the call site. -/
def agent_mk_for_bot (name engine : String) : Agent :=
  { name := name
    engine := engine
    role := "agent"
    memory := []
    function_call_repeats := 1
    ignore_none_function_messages := false }

/-- The primed persona agent _load_bot builds for an uncached name:
construct bots.<name> and receive the parsed priming messages without
console echo. -/
def bot_agent (readDef : String → ExpFile) (name engine : String) : Agent :=
  (receive_messages (agent_mk_for_bot ("bots." ++ name) engine)
    (readDef name).exp_data false).1

/-- What a call to _load_bot produces: the updated cache, the returned
(agent, template) pair, how many times the persona definition file was
read, and what was echoed to the console while priming. -/
structure LoadBotResult where
  cache : BotCache
  pair : Agent × String
  file_reads : Nat
  echoed : List String
deriving Repr

/-- Embeds _load_bot (src/botplayers/function.py lines 11-27).
`readDef name` is the filesystem/YAML boundary: the parsed content of
experience/<name>.yaml. A cached name returns the cached pair without
touching the file; an uncached name reads the file once, builds the
primed agent, stores the pair under the name and returns it. -/
def load_bot (readDef : String → ExpFile) (bots : BotCache)
    (name engine : String) : LoadBotResult :=
  match List.lookup name bots with
  | some pair =>
      { cache := bots, pair := pair, file_reads := 0, echoed := [] }
  | none =>
      let raw := readDef name
      let primed := receive_messages
        (agent_mk_for_bot ("bots." ++ name) engine) raw.exp_data false
      let pair := (primed.1, raw.template_user)
      { cache := bots ++ [(name, pair)]
        pair := pair
        file_reads := 1
        echoed := primed.2 }

/-- The loop-terminating inputs of the demo CLI
(src/app/memory_tests/simple.py line 77). -/
def quit_words : List String := ["exit", "q", "quit()", "quit"]

/-- What one iteration of the demo read loop does with an input line. -/
inductive LoopAction where
  | exit
  | printMem
  | act (received : Bool)
deriving DecidableEq, Repr

/-- Python str.strip() with no argument: drop leading and trailing
whitespace characters, here computed on the character list. -/
def py_strip (s : String) : String :=
  String.mk ((s.data.dropWhile Char.isWhitespace).reverse.dropWhile
    Char.isWhitespace).reverse

/-- Embeds the dispatch of the read loop body (src/app/memory_tests/
simple.py lines 76-84): a quit word leaves the loop; the ::mem input
prints the full memory and continues; otherwise the line is received as
a user message iff its strip() is non-blank, and think_and_act runs. -/
def loop_step (user_message : String) : LoopAction :=
  if quit_words.contains user_message then LoopAction.exit
  else if user_message = "::mem" then LoopAction.printMem
  else LoopAction.act (py_strip user_message ≠ "")

/-- The system prompt of the demo agent
(src/app/memory_tests/simple.py lines 68-69). -/
def demo_prompt : String :=
  "You are a helpful bot. You can use functions to access the knowledge "
    ++ "from a database. Answer questions using only the knowledge from "
    ++ "the database."

/-- The demo agent (src/app/memory_tests/simple.py lines 67-73): Bot on
gpt-4 with function_call_repeats = 1 and ignore_none_function_messages =
false. The interactive_objects argument of that call belongs to the
InteractiveSpace mechanism whose defining code is absent from src; it
does not affect the fields below. -/
def demo_agent : Agent := agent_init "Bot" demo_prompt "gpt-4" "agent" 1 false

/-- One iteration of the demo read loop on agent state a: the action
taken, the agent state afterwards, and the number of completion requests
issued for this input line. -/
def cli_iteration (table : List (String × FunctionInfo))
    (json_loads : String → Except String (List (String × PyVal)))
    (dumps : CallResult → String) (world : PyVal)
    (oracle : Nat → Message) (a : Agent) (user_message : String) :
    LoopAction × Agent × Nat :=
  match loop_step user_message with
  | LoopAction.exit => (LoopAction.exit, a, 0)
  | LoopAction.printMem => (LoopAction.printMem, a, 0)
  | LoopAction.act received =>
      let user_msg : Message :=
        { role := "user", content := user_message,
          function_call := none, name := none }
      let a1 := if received then (receive_message a user_msg true).1 else a
      let r := think_and_act table json_loads dumps world oracle a1
      (LoopAction.act received, r.1, r.2)

/-- A heap of addressed Python objects for the claims about class-level
default objects of the Agent class: list objects (memories) and
string-keyed dict objects (sampling parameter dicts, their float values
carried as literals). Address 0 of each heap holds the object created
when the class body ran: the persisted default memory list
(agent.py line 165) and the persisted default engine_args dict
(agent.py line 167). -/
structure AgentHeap where
  lists : List (List Message)
  dicts : List (List (String × String))
deriving DecidableEq, Repr

/-- The heap right after the Agent class body ran: the shared default
memory list is empty, the shared default engine_args dict maps
temperature to the literal 1.0. -/
def agentHeap0 : AgentHeap :=
  { lists := [[]], dicts := [[("temperature", "1.0")]] }

/-- The address of the class-level default memory list. -/
def agent_class_memory_addr : Nat := 0

/-- The address of the class-level default engine_args dict. -/
def agent_class_engine_args_addr : Nat := 0

/-- The identity-level view of an Agent instance: its plain-valued
instance attributes, the address of the list its memory attribute points
to, and the address its engine_args attribute points to when the instance
has one of its own: Agent.__init__ assigns a fresh memory list but never
assigns engine_args, so lookups of the latter fall back to the class
attribute. -/
structure AgentObj where
  name : String
  engine : String
  role : String
  mem_addr : Nat
  engine_args_addr : Option Nat
  function_call_repeats : Nat
  ignore_none_function_messages : Bool
deriving DecidableEq, Repr

/-- Embeds Agent.__init__ at the object-identity level
(src/botplayers/agent.py lines 171-182): a fresh list object holding the
system message is allocated for self.memory; self.engine_args is not
assigned, so the instance keeps no address of its own for it. -/
def agent_obj_init (h : AgentHeap) (name prompt engine role : String)
    (function_call_repeats : Nat) (ignore_none_function_messages : Bool) :
    AgentHeap × AgentObj :=
  let addr := h.lists.length
  ({ h with lists := h.lists ++
      [[{ role := "system", content := prompt,
          function_call := none, name := none }]] },
   { name := name
     engine := engine
     role := role
     mem_addr := addr
     engine_args_addr := none
     function_call_repeats := function_call_repeats
     ignore_none_function_messages := ignore_none_function_messages })

/-- Python attribute lookup for engine_args: the instance attribute when
present, else the class attribute. -/
def engineArgsAddr (a : AgentObj) : Nat :=
  a.engine_args_addr.getD agent_class_engine_args_addr

/-- Reading self.memory through an agent object. -/
def memoryOf (h : AgentHeap) (a : AgentObj) : List Message :=
  h.lists.getD a.mem_addr []

/-- Reading self.engine_args through an agent object. -/
def engineArgsOf (h : AgentHeap) (a : AgentObj) : List (String × String) :=
  h.dicts.getD (engineArgsAddr a) []

/-- self.memory.append(message): mutate the list object that the memory
attribute of the agent points to. -/
def append_message (h : AgentHeap) (a : AgentObj) (m : Message) :
    AgentHeap :=
  { h with lists := h.lists.set a.mem_addr (memoryOf h a ++ [m]) }

/-- self.engine_args[k] = v: mutate the dict object that the
engine_args attribute of the agent resolves to. -/
def set_engine_arg (h : AgentHeap) (a : AgentObj) (k v : String) :
    AgentHeap :=
  let d2 := pyDictSet (engineArgsOf h a) k v
  { h with dicts := h.dicts.set (engineArgsAddr a) d2 }

/-- The heap for the World class: dict objects mapping agent names to
agents. Address 0 holds the dict created when the class body ran
(agents: Dict[str, Agent] = dict(), agent.py line 339). -/
structure WorldHeap where
  dicts : List (List (String × Agent))
deriving DecidableEq, Repr

/-- The heap right after the World class body ran. -/
def worldHeap0 : WorldHeap := { dicts := [[]] }

/-- The address of the class-level agents dict. -/
def world_class_agents_addr : Nat := 0

/-- A World instance: the class defines no __init__ and its methods only
mutate the dict self.agents resolves to, so an instance carries at most
an own agents attribute address, and instances as constructed never have
one. -/
structure WorldObj where
  agents_addr : Option Nat
deriving DecidableEq, Repr

/-- World(): no __init__, so the fresh instance owns no attributes. -/
def world_new : WorldObj := { agents_addr := none }

/-- Python attribute lookup for agents: the instance attribute when
present, else the class attribute. -/
def agentsAddr (w : WorldObj) : Nat :=
  w.agents_addr.getD world_class_agents_addr

/-- Reading self.agents through a world object. -/
def agentsOf (h : WorldHeap) (w : WorldObj) : List (String × Agent) :=
  h.dicts.getD (agentsAddr w) []

/-- Embeds World.add_agent (src/botplayers/agent.py lines 341-360): build
the Agent from the arguments (the call passes role and engine by keyword)
and store it under name in the dict self.agents resolves to. -/
def world_add_agent (h : WorldHeap) (w : WorldObj)
    (name prompt role engine : String) (function_call_repeats : Nat)
    (ignore_none_function_messages : Bool) : WorldHeap :=
  let agent := agent_init name prompt engine role function_call_repeats
    ignore_none_function_messages
  let d2 := pyDictSet (agentsOf h w) name agent
  { h with dicts := h.dicts.set (agentsAddr w) d2 }

/-- Embeds World.add (src/botplayers/agent.py lines 362-369): store a
pre-built agent under its own name. -/
def world_add (h : WorldHeap) (w : WorldObj) (agent : Agent) : WorldHeap :=
  let d2 := pyDictSet (agentsOf h w) agent.name agent
  { h with dicts := h.dicts.set (agentsAddr w) d2 }

/-- Concrete input: the two construction steps of the object-identity
counterexample and witness for the default-object claim. -/
def c2_step1 : AgentHeap × AgentObj :=
  agent_obj_init agentHeap0 "alice" "be alice" "gpt-3.5-turbo-16k" "agent"
    10 true

/-- Concrete input: the second independently constructed agent. -/
def c2_step2 : AgentHeap × AgentObj :=
  agent_obj_init c2_step1.1 "bob" "be bob" "gpt-3.5-turbo-16k" "agent"
    10 true

/-- Concrete input: a model response without a function call. -/
def plain_oracle : Nat → Message :=
  fun _ => { role := "assistant", content := "hello",
             function_call := none, name := none }

/-- Concrete input: a trivial json.loads oracle. -/
def ok_json_loads : String → Except String (List (String × PyVal)) :=
  fun _ => Except.ok []

/-- Concrete input: a trivial json.dumps oracle. -/
def zero_dumps : CallResult → String := fun _ => ""

/-- Concrete input: a registered function that records, through its
result, that it ran and which agent_name was injected. -/
def c4_fi : FunctionInfo :=
  { func := fun args =>
      Except.ok (some ((List.lookup "agent_name" args).getD PyVal.vnone))
    has_world_param := false
    has_agent_param := false
    has_agent_name_param := true }

/-- Concrete input: a registry holding only that function. -/
def c4_table : List (String × FunctionInfo) := [("probe", c4_fi)]

/-- Concrete input: the dispatching agent. -/
def c4_agent : Agent := agent_init "Bot" "p" "gpt-4" "agent" 1 false

/-- Concrete input: a function-call request whose arguments key is
missing. -/
def c4_fc_absent : FunctionCall :=
  { name := "probe", arguments := StrField.absent }

/-- Concrete input: a function-call request whose arguments value is
null. -/
def c4_fc_null : FunctionCall :=
  { name := "probe", arguments := StrField.null }

/-- Concrete input: a json.loads oracle that raises on the empty string,
as the json module does. -/
def c4_json_loads : String → Except String (List (String × PyVal)) :=
  fun s => if s = "" then Except.error "Expecting value" else Except.ok []

/-- Concrete input: a registered function whose body always raises. -/
def c5_fi : FunctionInfo :=
  { func := fun _ => Except.error "boom"
    has_world_param := false
    has_agent_param := false
    has_agent_name_param := false }

/-- Concrete input: a registry holding only the raising function. -/
def c5_table : List (String × FunctionInfo) := [("boom", c5_fi)]

/-- Concrete input: a model that requests the raising function on every
iteration. -/
def c5_oracle : Nat → Message :=
  fun _ => { role := "assistant", content := ""
             function_call := some { name := "boom",
                                     arguments := StrField.null }
             name := none }

/-- Concrete input: an agent with two think-act iterations. -/
def c5_agent : Agent := agent_init "Bot" "p" "gpt-4" "agent" 2 true

/-- Concrete input: usefulness probes that answer yes three times for the
first fact and no otherwise. -/
def c6_use : Nat → Nat → String :=
  fun i j => if i = 0 ∧ j < 3 then "Yes." else "no"

/-- Concrete input: sufficiency probes that always answer no. -/
def c6_suf : Nat → Nat → String := fun _ _ => "no"

/-- Concrete input: a reflected function with one required text
parameter, one defaulted whole-number parameter, one unannotated required
parameter, and two reserved parameters. -/
def c8_fn : PyFunction :=
  { fname := "probe"
    params :=
      [{ name := "self", has_default := false, ann := none },
       { name := "a", has_default := false, ann := some PyAnn.astr },
       { name := "b", has_default := true, ann := some PyAnn.aint },
       { name := "c", has_default := false, ann := none },
       { name := "agent_name", has_default := false, ann := none }]
    doc := none }

/-- Concrete input: a regex oracle that finds no description lines. -/
def c8_rsearch : String → String → Option String := fun _ _ => none

/-- Concrete input: a priming message for the persona loader. -/
def c9_msg : Message :=
  { role := "user", content := "hi", function_call := none, name := none }

/-- Concrete input: the parsed persona definition the filesystem oracle
returns for every name. -/
def c9_readDef : String → ExpFile :=
  fun _ => { exp_data := [c9_msg], template_user := "T" }

/-- Concrete input: a cached pair for the persona cache hit. -/
def c9_pair : Agent × String :=
  (agent_mk_for_bot "bots.cached" "gpt-3.5-turbo", "CT")

/-- Concrete input: a cache already holding the name cached. -/
def c9_cache : BotCache := [("cached", c9_pair)]

/-- Concrete input: a pre-built agent stored through one world instance
and looked up through another. -/
def c10_agent : Agent := agent_init "Bot" "p" "gpt-4" "agent" 1 false

/-- The content transition of one delta, in isolation: what the content
accumulator becomes given the content field of the delta (proof-side reading
of the skip condition of src/botplayers/agent.py lines 130-133). -/
def contentStep (c : String) : StrField → String
  | StrField.absent => c
  | StrField.null => c
  | StrField.str s => if c.length = 0 ∧ s = "\n\n" then c else c ++ s

/-- Merging an already-accumulated optional field value with a list of
later fragments: no value and no fragments stay absent, otherwise the
fragments are concatenated onto whatever was there. -/
def mergeOpt : Option String → List String → Option String
  | acc, [] => acc
  | none, vs => some (strJoin vs)
  | some s, vs => some (s ++ strJoin vs)

theorem getD_set_ne {α : Type} (l : List α) (i j : Nat) (x d : α)
    (h : i ≠ j) : (l.set i x).getD j d = l.getD j d := by
  simp [List.getD, List.getElem?_set_ne h]

theorem getD_set_self {α : Type} (l : List α) (i : Nat) (x d : α)
    (h : i < l.length) : (l.set i x).getD i d = x := by
  simp [List.getD, List.getElem?_set_self, h]

theorem lookup_map_overwrite {α : Type} (k : String) (v : α)
    (d : List (String × α)) (hany : d.any (fun kv => kv.1 == k) = true) :
    List.lookup k (d.map (fun kv => if kv.1 = k then (kv.1, v) else kv))
      = some v := by
  induction d with
  | nil => simp at hany
  | cons kv rest ih =>
    rw [List.map_cons]
    by_cases hk : kv.1 = k
    · rw [if_pos hk, List.lookup_cons]
      have htrue : (k == kv.1) = true := by simp [hk]
      rw [htrue]
    · rw [if_neg hk, List.lookup_cons]
      have hfalse : (k == kv.1) = false := by
        rw [beq_eq_false_iff_ne]
        exact fun hkk => hk hkk.symm
      rw [hfalse]
      have hpkv : (kv.1 == k) = false := beq_eq_false_iff_ne.mpr hk
      have hrest : rest.any (fun kv => kv.1 == k) = true := by
        simpa [List.any_cons, hpkv] using hany
      exact ih hrest

theorem lookup_none_of_not_any {α : Type} (k : String)
    (d : List (String × α)) (hany : d.any (fun kv => kv.1 == k) = false) :
    List.lookup k d = none := by
  induction d with
  | nil => rfl
  | cons kv rest ih =>
    rw [List.any_cons, Bool.or_eq_false_iff] at hany
    have hne : kv.1 ≠ k := beq_eq_false_iff_ne.mp hany.1
    have hk : (k == kv.1) = false := beq_eq_false_iff_ne.mpr (Ne.symm hne)
    rw [List.lookup_cons, hk]
    exact ih hany.2

theorem lookup_append_of_none {α : Type} (k : String)
    (d e : List (String × α)) (h : List.lookup k d = none) :
    List.lookup k (d ++ e) = List.lookup k e := by
  induction d with
  | nil => rfl
  | cons kv rest ih =>
    rw [List.lookup_cons] at h
    rw [List.cons_append, List.lookup_cons]
    cases hbeq : (k == kv.1) with
    | true => rw [hbeq] at h; simp at h
    | false =>
        rw [hbeq] at h
        exact ih h

theorem lookup_pyDictSet {α : Type} (d : List (String × α)) (k : String)
    (v : α) : List.lookup k (pyDictSet d k v) = some v := by
  rw [pyDictSet]
  by_cases hany : d.any (fun kv => kv.1 == k) = true
  · rw [if_pos hany]
    exact lookup_map_overwrite k v d hany
  · have hf : d.any (fun kv => kv.1 == k) = false :=
      Bool.eq_false_iff.mpr hany
    rw [if_neg hany]
    rw [lookup_append_of_none k d _ (lookup_none_of_not_any k d hf)]
    rw [List.lookup_cons]
    have htrue : (k == k) = true := by simp
    rw [htrue]

/-- Claim C1: Agent.receive_message appends exactly the one message to
the end of the memory of the agent, leaving all earlier entries and every
other attribute unchanged — but the method body ends without a return
statement, so its Python return value is None rather than the agent:
the chained call pattern receive_message(...).think_and_act() that
src/botplayers/function.py relies on cannot succeed on this code. -/
theorem claim_C1_receive_message_appends_but_returns_none
    (a : Agent) (m : Message) (p : Bool) :
    (receive_message a m p).1.memory = a.memory ++ [m]
    ∧ (receive_message a m p).1.name = a.name
    ∧ (receive_message a m p).1.engine = a.engine
    ∧ (receive_message a m p).1.role = a.role
    ∧ (receive_message a m p).1.function_call_repeats
        = a.function_call_repeats
    ∧ (receive_message a m p).1.ignore_none_function_messages
        = a.ignore_none_function_messages
    ∧ (receive_message a m p).2 = none :=
  ⟨rfl, rfl, rfl, rfl, rfl, rfl, rfl⟩

/-- Claim C2 counterexample: two independently constructed agents resolve
engine_args to the same class-level dict object, so mutating the sampling
parameters of the first agent changes what the second agent reads: before
the mutation the engine_args of the second agent hold temperature 1.0,
and after the assignment through the first agent they hold 0.5. This falsifies
the claim that mutating the sampling parameters of one agent never
changes those of another agent. -/
theorem claim_C2_counterexample :
    engineArgsOf c2_step2.1 c2_step2.2 = [("temperature", "1.0")]
    ∧ engineArgsOf
        (set_engine_arg c2_step2.1 c2_step1.2 "temperature" "0.5")
        c2_step2.2 = [("temperature", "0.5")] :=
  ⟨rfl, rfl⟩

/-- Claim C2 as amended: two independently constructed agents own
distinct, independent memory list objects (appending through one never
changes the memory of the other), but their engine_args attribute resolves to
the single class-level dict, which __init__ never replaces: a sampling
parameter assigned through one agent is read back through the other. -/
theorem claim_C2_amended (h : AgentHeap)
    (n1 p1 e1 r1 n2 p2 e2 r2 : String) (f1 f2 : Nat) (b1 b2 : Bool)
    (hd : agent_class_engine_args_addr < h.dicts.length)
    (h1 : AgentHeap) (a1 : AgentObj) (h2 : AgentHeap) (a2 : AgentObj)
    (eq1 : agent_obj_init h n1 p1 e1 r1 f1 b1 = (h1, a1))
    (eq2 : agent_obj_init h1 n2 p2 e2 r2 f2 b2 = (h2, a2)) :
    a1.mem_addr ≠ a2.mem_addr
    ∧ (∀ m, memoryOf (append_message h2 a1 m) a2 = memoryOf h2 a2)
    ∧ (∀ m, memoryOf (append_message h2 a2 m) a1 = memoryOf h2 a1)
    ∧ engineArgsAddr a1 = engineArgsAddr a2
    ∧ (∀ k v, engineArgsOf (set_engine_arg h2 a1 k v) a2
        = pyDictSet (engineArgsOf h2 a1) k v) := by
  rw [agent_obj_init, Prod.mk.injEq] at eq1 eq2
  obtain ⟨hh1, ha1⟩ := eq1
  obtain ⟨hh2, ha2⟩ := eq2
  subst hh1 hh2 ha1 ha2
  refine ⟨?_, ?_, ?_, rfl, ?_⟩
  · simp only [List.length_append, List.length_cons, List.length_nil]
    omega
  · intro m
    apply getD_set_ne
    simp only [List.length_append, List.length_cons, List.length_nil]
    omega
  · intro m
    apply getD_set_ne
    simp only [List.length_append, List.length_cons, List.length_nil]
    omega
  · intro k v
    rw [set_engine_arg]
    apply getD_set_self
    simpa using hd

/-- Claim C2 witness: the amended statement evaluated on two concretely
constructed agents over the initial class heap. -/
theorem claim_C2_witness :
    c2_step1.2.mem_addr ≠ c2_step2.2.mem_addr
    ∧ (∀ m, memoryOf (append_message c2_step2.1 c2_step1.2 m) c2_step2.2
        = memoryOf c2_step2.1 c2_step2.2)
    ∧ (∀ m, memoryOf (append_message c2_step2.1 c2_step2.2 m) c2_step1.2
        = memoryOf c2_step2.1 c2_step1.2)
    ∧ engineArgsAddr c2_step1.2 = engineArgsAddr c2_step2.2
    ∧ (∀ k v, engineArgsOf (set_engine_arg c2_step2.1 c2_step1.2 k v)
        c2_step2.2 = pyDictSet (engineArgsOf c2_step2.1 c2_step1.2) k v) :=
  claim_C2_amended agentHeap0 "alice" "be alice" "gpt-3.5-turbo-16k"
    "agent" "bob" "be bob" "gpt-3.5-turbo-16k" "agent" 10 10 true true
    (by decide) c2_step1.1 c2_step1.2 c2_step2.1 c2_step2.2 rfl rfl

/-- Claim C10: World.agents is the single class-level dict: instances as
constructed own no agents attribute, so both instances resolve the same
address; an agent stored through one instance (by add_agent or add) is
visible through every other instance, and storing under an existing name
overwrites the entry for all instances (the lookup after the store yields
the new agent regardless of what the dict held). -/
theorem claim_C10_world_agents_shared (h : WorldHeap) (w1 w2 : WorldObj)
    (hw1 : w1.agents_addr = none) (hw2 : w2.agents_addr = none)
    (hva : world_class_agents_addr < h.dicts.length)
    (name prompt role engine : String) (fcr : Nat) (infm : Bool)
    (agent : Agent) :
    agentsAddr w1 = agentsAddr w2
    ∧ agentsOf (world_add_agent h w1 name prompt role engine fcr infm) w2
        = pyDictSet (agentsOf h w1) name
            (agent_init name prompt engine role fcr infm)
    ∧ List.lookup name
        (agentsOf (world_add_agent h w1 name prompt role engine fcr infm) w2)
        = some (agent_init name prompt engine role fcr infm)
    ∧ agentsOf (world_add h w1 agent) w2
        = pyDictSet (agentsOf h w1) agent.name agent
    ∧ List.lookup agent.name (agentsOf (world_add h w1 agent) w2)
        = some agent := by
  have haddr1 : agentsAddr w1 = world_class_agents_addr := by
    simp [agentsAddr, hw1]
  have haddr2 : agentsAddr w2 = world_class_agents_addr := by
    simp [agentsAddr, hw2]
  have hset1 : agentsOf (world_add_agent h w1 name prompt role engine fcr
      infm) w2 = pyDictSet (agentsOf h w1) name
        (agent_init name prompt engine role fcr infm) := by
    rw [world_add_agent, agentsOf, haddr2, ← haddr1]
    exact getD_set_self _ _ _ _ (by rw [haddr1]; exact hva)
  have hset2 : agentsOf (world_add h w1 agent) w2
      = pyDictSet (agentsOf h w1) agent.name agent := by
    rw [world_add, agentsOf, haddr2, ← haddr1]
    exact getD_set_self _ _ _ _ (by rw [haddr1]; exact hva)
  refine ⟨haddr1.trans haddr2.symm, hset1, ?_, hset2, ?_⟩
  · rw [hset1]; exact lookup_pyDictSet _ _ _
  · rw [hset2]; exact lookup_pyDictSet _ _ _

/-- Claim C10 witness: the sharing statement evaluated on the initial
class heap and two fresh world instances. -/
theorem claim_C10_witness :
    agentsAddr world_new = agentsAddr world_new
    ∧ agentsOf (world_add_agent worldHeap0 world_new "Bot" "p" "agent"
        "gpt-4" 1 false) world_new
        = pyDictSet (agentsOf worldHeap0 world_new) "Bot"
            (agent_init "Bot" "p" "gpt-4" "agent" 1 false)
    ∧ List.lookup "Bot" (agentsOf (world_add_agent worldHeap0 world_new
        "Bot" "p" "agent" "gpt-4" 1 false) world_new)
        = some (agent_init "Bot" "p" "gpt-4" "agent" 1 false)
    ∧ agentsOf (world_add worldHeap0 world_new c10_agent) world_new
        = pyDictSet (agentsOf worldHeap0 world_new) c10_agent.name c10_agent
    ∧ List.lookup c10_agent.name
        (agentsOf (world_add worldHeap0 world_new c10_agent) world_new)
        = some c10_agent :=
  claim_C10_world_agents_shared worldHeap0 world_new world_new rfl rfl
    (by decide) "Bot" "p" "agent" "gpt-4" 1 false c10_agent

/-- Claim C9: _load_bot on a cached name returns the cached pair with the
cache unchanged and without reading the definition file; on an uncached
name it reads the file once, builds the dedicated agent bots.<name> with
function_call_repeats 1 and ignore_none_function_messages false, primes
its memory with the parsed messages with nothing echoed to the console,
caches the (agent, template) pair and returns it. -/
theorem claim_C9_load_bot (readDef : String → ExpFile) (bots : BotCache)
    (name engine : String) :
    (∀ pair, List.lookup name bots = some pair →
      load_bot readDef bots name engine
        = { cache := bots, pair := pair, file_reads := 0, echoed := [] })
    ∧ (List.lookup name bots = none →
      load_bot readDef bots name engine
        = { cache := bots ++ [(name, (bot_agent readDef name engine,
              (readDef name).template_user))]
            pair := (bot_agent readDef name engine,
              (readDef name).template_user)
            file_reads := 1
            echoed := [] }
      ∧ (bot_agent readDef name engine).name = "bots." ++ name
      ∧ (bot_agent readDef name engine).function_call_repeats = 1
      ∧ (bot_agent readDef name engine).ignore_none_function_messages
          = false
      ∧ (bot_agent readDef name engine).memory
          = (readDef name).exp_data) := by
  constructor
  · intro pair hpair
    rw [load_bot, hpair]
  · intro hnone
    rw [load_bot, hnone]
    refine ⟨rfl, rfl, rfl, rfl, ?_⟩
    simp [bot_agent, receive_messages, agent_mk_for_bot]

/-- Claim C9 witness: a cache hit returns the cached pair without a file
read, and a cache miss on the empty cache builds, primes and caches the
persona agent with one file read and nothing echoed. -/
theorem claim_C9_witness :
    load_bot c9_readDef c9_cache "cached" "gpt-3.5-turbo"
      = { cache := c9_cache, pair := c9_pair, file_reads := 0,
          echoed := [] }
    ∧ load_bot c9_readDef [] "rephrase" "gpt-3.5-turbo"
      = { cache := [("rephrase", (bot_agent c9_readDef "rephrase"
            "gpt-3.5-turbo", "T"))]
          pair := (bot_agent c9_readDef "rephrase" "gpt-3.5-turbo", "T")
          file_reads := 1
          echoed := [] }
    ∧ (bot_agent c9_readDef "rephrase" "gpt-3.5-turbo").name
        = "bots.rephrase"
    ∧ (bot_agent c9_readDef "rephrase" "gpt-3.5-turbo").memory = [c9_msg] := by
  have hhit := (claim_C9_load_bot c9_readDef c9_cache "cached"
    "gpt-3.5-turbo").1 c9_pair rfl
  have hmiss := (claim_C9_load_bot c9_readDef [] "rephrase"
    "gpt-3.5-turbo").2 rfl
  exact ⟨hhit, hmiss.1, hmiss.2.1, hmiss.2.2.2.2⟩

theorem think_and_act_loop_one (table : List (String × FunctionInfo))
    (json_loads : String → Except String (List (String × PyVal)))
    (dumps : CallResult → String) (world : PyVal)
    (oracle : Nat → Message) (k : Nat) (a : Agent) :
    (think_and_act_loop table json_loads dumps world oracle 1 k a).2
      = k + 1 := by
  rw [think_and_act_loop]
  cases hfc : (oracle k).function_call with
  | none => simp [hfc]
  | some fc => simp [hfc, think_and_act_loop]

theorem think_and_act_requests_one (table : List (String × FunctionInfo))
    (json_loads : String → Except String (List (String × PyVal)))
    (dumps : CallResult → String) (world : PyVal)
    (oracle : Nat → Message) (a : Agent)
    (h : a.function_call_repeats = 1) :
    (think_and_act table json_loads dumps world oracle a).2 = 1 := by
  rw [think_and_act, h]
  exact think_and_act_loop_one table json_loads dumps world oracle 0 a

/-- Claim C3 counterexample: a whitespace-only input line still leads to
one completion request: the read loop skips receive_message for it but
falls through to think_and_act, which issues a request. This falsifies
the claim that no completion request is issued for a blank line. -/
theorem claim_C3_counterexample :
    (cli_iteration [] ok_json_loads zero_dumps PyVal.vnone plain_oracle
      demo_agent " ").2.2 = 1 := by
  rfl

/-- Claim C3 as amended: the ::mem input prints the memory and continues
the loop with no completion request issued; a blank/whitespace-only input
is not received into memory (receive_message is skipped), but the loop
still runs think_and_act, so exactly one completion request is issued for
that line (the demo agent has function_call_repeats 1). -/
theorem claim_C3_amended (table : List (String × FunctionInfo))
    (json_loads : String → Except String (List (String × PyVal)))
    (dumps : CallResult → String) (world : PyVal)
    (oracle : Nat → Message) (s : String)
    (hq : quit_words.contains s = false) (hm : s ≠ "::mem")
    (hb : py_strip s = "") :
    loop_step "::mem" = LoopAction.printMem
    ∧ (cli_iteration table json_loads dumps world oracle demo_agent
        "::mem").2.2 = 0
    ∧ loop_step s = LoopAction.act false
    ∧ (cli_iteration table json_loads dumps world oracle demo_agent s).2.1
        = (think_and_act table json_loads dumps world oracle demo_agent).1
    ∧ (cli_iteration table json_loads dumps world oracle demo_agent s).2.2
        = 1 := by
  have hstep : loop_step s = LoopAction.act false := by
    rw [loop_step, if_neg (by rw [hq]; simp), if_neg hm, hb]
    simp
  refine ⟨rfl, rfl, hstep, ?_, ?_⟩
  · rw [cli_iteration, hstep]
    rfl
  · rw [cli_iteration, hstep]
    exact think_and_act_requests_one table json_loads dumps world oracle
      demo_agent rfl

/-- Claim C3 witness: the amended statement evaluated at the
whitespace-only input line. -/
theorem claim_C3_witness :
    loop_step "::mem" = LoopAction.printMem
    ∧ (cli_iteration [] ok_json_loads zero_dumps PyVal.vnone plain_oracle
        demo_agent "::mem").2.2 = 0
    ∧ loop_step "  " = LoopAction.act false
    ∧ (cli_iteration [] ok_json_loads zero_dumps PyVal.vnone plain_oracle
        demo_agent "  ").2.1
        = (think_and_act [] ok_json_loads zero_dumps PyVal.vnone
            plain_oracle demo_agent).1
    ∧ (cli_iteration [] ok_json_loads zero_dumps PyVal.vnone plain_oracle
        demo_agent "  ").2.2 = 1 :=
  claim_C3_amended [] ok_json_loads zero_dumps PyVal.vnone plain_oracle
    "  " (by rfl) (by decide) (by rfl)

/-- Claim C4 counterexample: a dispatched function-call request whose
arguments key is missing does not have the registered function invoked on
an empty argument object: the KeyError raised when reading the key is
caught and returned as a structured error result, while the same request
with a null arguments value does reach the function with the flagged
injection applied (here the injected agent_name Bot comes back). -/
theorem claim_C4_counterexample :
    call_function c4_table ok_json_loads c4_agent PyVal.vnone c4_fc_absent
      = CallResult.rerror "\u0027arguments\u0027"
    ∧ call_function c4_table ok_json_loads c4_agent PyVal.vnone c4_fc_null
      = CallResult.rval (PyVal.vstr "Bot") :=
  ⟨rfl, rfl⟩

/-- Claim C4 as amended: for a registered function name, only a null
arguments value is treated as an empty object, after which the flagged
space/agent/agent-name values are injected and the function invoked; an
absent arguments key instead raises KeyError internally and an arguments
string rejected by json.loads raises there, and in both cases the caught
exception becomes a structured error result without any invocation. -/
theorem call_function_of_lookup (table : List (String × FunctionInfo))
    (json_loads : String → Except String (List (String × PyVal)))
    (self_ : Agent) (world : PyVal) (fc : FunctionCall)
    (fi : FunctionInfo) (hlook : List.lookup fc.name table = some fi) :
    call_function table json_loads self_ world fc
      = to_call_result (call_function_try fi json_loads self_ world fc) := by
  rw [call_function, hlook]

theorem call_function_try_str (fi : FunctionInfo)
    (json_loads : String → Except String (List (String × PyVal)))
    (self_ : Agent) (world : PyVal) (fcn s : String) :
    call_function_try fi json_loads self_ world
      { name := fcn, arguments := StrField.str s }
      = match json_loads s with
        | Except.error e => Except.error e
        | Except.ok fa => fi.func (inject_args fi self_ world fa) := rfl

theorem claim_C4_amended (table : List (String × FunctionInfo))
    (json_loads : String → Except String (List (String × PyVal)))
    (self_ : Agent) (world : PyVal) (fc : FunctionCall)
    (fi : FunctionInfo) (hlook : List.lookup fc.name table = some fi) :
    (fc.arguments = StrField.null →
      call_function table json_loads self_ world fc
        = to_call_result (fi.func (inject_args fi self_ world [])))
    ∧ (fc.arguments = StrField.absent →
      call_function table json_loads self_ world fc
        = CallResult.rerror "\u0027arguments\u0027")
    ∧ (∀ s e, fc.arguments = StrField.str s →
      json_loads s = Except.error e →
      call_function table json_loads self_ world fc
        = CallResult.rerror e) := by
  rw [call_function_of_lookup table json_loads self_ world fc fi hlook]
  obtain ⟨fcn, fcargs⟩ := fc
  refine ⟨?_, ?_, ?_⟩
  · intro hnull
    change fcargs = StrField.null at hnull
    subst hnull
    rfl
  · intro habs
    change fcargs = StrField.absent at habs
    subst habs
    rfl
  · intro s e hstr herr
    change fcargs = StrField.str s at hstr
    subst hstr
    rw [call_function_try_str, herr]
    rfl

/-- Claim C4 witness: the amended statement evaluated on a concrete
registry: the null-arguments call reaches the function with agent_name
injected, the absent-key call and the empty-string call return the caught
errors. -/
theorem claim_C4_witness :
    call_function c4_table c4_json_loads c4_agent PyVal.vnone c4_fc_null
      = to_call_result (c4_fi.func (inject_args c4_fi c4_agent
          PyVal.vnone []))
    ∧ call_function c4_table c4_json_loads c4_agent PyVal.vnone
        c4_fc_absent = CallResult.rerror "\u0027arguments\u0027"
    ∧ call_function c4_table c4_json_loads c4_agent PyVal.vnone
        { name := "probe", arguments := StrField.str "" }
      = CallResult.rerror "Expecting value" :=
  ⟨(claim_C4_amended c4_table c4_json_loads c4_agent PyVal.vnone
      c4_fc_null c4_fi rfl).1 rfl,
   (claim_C4_amended c4_table c4_json_loads c4_agent PyVal.vnone
      c4_fc_absent c4_fi rfl).2.1 rfl,
   (claim_C4_amended c4_table c4_json_loads c4_agent PyVal.vnone
      { name := "probe", arguments := StrField.str "" } c4_fi rfl).2.2
      "" "Expecting value" rfl rfl⟩

theorem think_and_act_loop_len (table : List (String × FunctionInfo))
    (json_loads : String → Except String (List (String × PyVal)))
    (dumps : CallResult → String) (world : PyVal)
    (oracle : Nat → Message)
    (h : ∀ i, (oracle i).function_call.isSome = true) :
    ∀ n k a, (think_and_act_loop table json_loads dumps world oracle
      n k a).1.memory.length = a.memory.length + 2 * n := by
  intro n
  induction n with
  | zero => intro k a; rfl
  | succ n ih =>
    intro k a
    rw [think_and_act_loop]
    cases hfc : (oracle k).function_call with
    | none =>
        have := h k
        rw [hfc] at this
        simp at this
    | some fc =>
        simp only [hfc]
        rw [ih]
        simp only [List.length_append, List.length_cons, List.length_nil]
        omega

/-- Claim C5: the function dispatcher never lets an exception escape: a
request naming an unregistered function returns the structured error
result built from the name (the message quotes the name); any exception
raised inside the try-block (argument reading, JSON parsing, or the
function body) is caught and returned as a structured error result with
the exception text; and the enclosing think_and_act loop keeps running
through all its iterations, appending the assistant message and the
function-result message each time, whatever the dispatcher returned. -/
theorem claim_C5_dispatcher_total (table : List (String × FunctionInfo))
    (json_loads : String → Except String (List (String × PyVal)))
    (dumps : CallResult → String) (world : PyVal)
    (oracle : Nat → Message) (self_ : Agent) (fc : FunctionCall) :
    (List.lookup fc.name table = none →
      call_function table json_loads self_ world fc
        = CallResult.rerror
            ("\"" ++ fc.name ++ "\" is not a callable function."))
    ∧ (∀ fi e, List.lookup fc.name table = some fi →
        call_function_try fi json_loads self_ world fc = Except.error e →
        call_function table json_loads self_ world fc
          = CallResult.rerror e)
    ∧ (∀ a, (∀ i, (oracle i).function_call.isSome = true) →
        (think_and_act table json_loads dumps world oracle a).1.memory.length
          = a.memory.length + 2 * a.function_call_repeats) := by
  refine ⟨?_, ?_, ?_⟩
  · intro hnone
    rw [call_function, hnone]
  · intro fi e hfi herr
    rw [call_function_of_lookup table json_loads self_ world fc fi hfi,
      herr]
    rfl
  · intro a hall
    rw [think_and_act]
    exact think_and_act_loop_len table json_loads dumps world oracle hall
      a.function_call_repeats 0 a

/-- Claim C5 witness: on a concrete registry whose only function raises,
the unknown-name request and the raising request both come back as
structured error results, and a two-iteration think_and_act driven by a
model that always requests the raising function runs to completion,
growing the one-message memory to five messages. -/
theorem claim_C5_witness :
    call_function c5_table ok_json_loads c4_agent PyVal.vnone
      { name := "nope", arguments := StrField.null }
      = CallResult.rerror "\"nope\" is not a callable function."
    ∧ call_function c5_table ok_json_loads c4_agent PyVal.vnone
      { name := "boom", arguments := StrField.null }
      = CallResult.rerror "boom"
    ∧ (think_and_act c5_table ok_json_loads zero_dumps PyVal.vnone
        c5_oracle c5_agent).1.memory.length = 5 := by
  refine ⟨?_, ?_, ?_⟩
  · exact (claim_C5_dispatcher_total c5_table ok_json_loads zero_dumps
      PyVal.vnone c5_oracle c4_agent
      { name := "nope", arguments := StrField.null }).1 rfl
  · exact (claim_C5_dispatcher_total c5_table ok_json_loads zero_dumps
      PyVal.vnone c5_oracle c4_agent
      { name := "boom", arguments := StrField.null }).2.1 c5_fi "boom"
      rfl rfl
  · have := (claim_C5_dispatcher_total c5_table ok_json_loads zero_dumps
      PyVal.vnone c5_oracle c4_agent
      { name := "boom", arguments := StrField.null }).2.2 c5_agent
      (fun _ => rfl)
    simpa using this

theorem jsEntry_none (p : PyParam) (h : p.ann = none) : jsEntry p = none := by
  obtain ⟨n, d, ann⟩ := p
  change ann = none at h
  subst h
  rfl

theorem jsEntry_some (p : PyParam) (a : PyAnn) (h : p.ann = some a) :
    jsEntry p = some (p.name, (annToJsonType a).getD "string") := by
  obtain ⟨n, d, ann⟩ := p
  change ann = some a at h
  subst h
  rfl

theorem js_lookup_none (l : List PyParam) (k : String)
    (hnot : k ∉ l.map PyParam.name) :
    List.lookup k (json_schema_types l) = none := by
  induction l with
  | nil => rfl
  | cons p rest ih =>
    rw [List.map_cons, List.mem_cons] at hnot
    push_neg at hnot
    obtain ⟨hne, hrest⟩ := hnot
    rw [json_schema_types]
    cases hann : p.ann with
    | none =>
        rw [List.filterMap_cons_none (jsEntry_none p hann)]
        exact ih hrest
    | some a =>
        rw [List.filterMap_cons_some (jsEntry_some p a hann)]
        rw [List.lookup_cons, beq_eq_false_iff_ne.mpr hne]
        exact ih hrest

theorem js_lookup_of_mem (l : List PyParam) (p : PyParam)
    (hnd : (l.map PyParam.name).Nodup) (hmem : p ∈ l) :
    List.lookup p.name (json_schema_types l)
      = Option.map (fun a => (annToJsonType a).getD "string") p.ann := by
  induction l with
  | nil => simp at hmem
  | cons q rest ih =>
    rw [List.map_cons, List.nodup_cons] at hnd
    obtain ⟨hq, hrest⟩ := hnd
    rcases List.mem_cons.mp hmem with heq | hmem2
    · subst heq
      rw [json_schema_types]
      cases hann : p.ann with
      | none =>
          rw [List.filterMap_cons_none (jsEntry_none p hann)]
          exact js_lookup_none rest p.name hq
      | some a =>
          rw [List.filterMap_cons_some (jsEntry_some p a hann)]
          have hself : (p.name == p.name) = true := by simp
          rw [List.lookup_cons, hself]
          rfl
    · have hpn : p.name ∈ rest.map PyParam.name :=
        List.mem_map_of_mem PyParam.name hmem2
      have hne : p.name ≠ q.name := fun he => hq (he ▸ hpn)
      rw [json_schema_types]
      cases hann : q.ann with
      | none =>
          rw [List.filterMap_cons_none (jsEntry_none q hann)]
          exact ih hrest hmem2
      | some a =>
          rw [List.filterMap_cons_some (jsEntry_some q a hann)]
          rw [List.lookup_cons, beq_eq_false_iff_ne.mpr hne]
          exact ih hrest hmem2

/-- Claim C8: for a function registered through agent_callable, the
generated required list is exactly the non-reserved parameters without a
default value, in order, and the JSON type of each non-reserved parameter in
the properties is string for a text annotation, integer for a whole
number, number for a floating number, boolean for a boolean, and string
for any other or absent annotation. The hypothesis is the guarantee, made
by the language itself, that the parameter names of a signature are
distinct. -/
theorem claim_C8_schema (f : PyFunction)
    (rsearch : String → String → Option String)
    (hnd : ((parameters_clean f.params).map PyParam.name).Nodup) :
    (agent_callable_sig rsearch f).required
      = ((parameters_clean f.params).filter (fun p => !p.has_default)).map
          PyParam.name
    ∧ (agent_callable_sig rsearch f).properties.map
        (fun kv => (kv.1, kv.2.type))
      = (parameters_clean f.params).map
          (fun p => (p.name, claimJsonType p.ann)) := by
  refine ⟨rfl, ?_⟩
  show ((parameters_clean f.params).map _).map _ = _
  rw [List.map_map]
  apply List.map_congr_left
  intro p hp
  show (p.name, (List.lookup p.name
    (json_schema_types (parameters_clean f.params))).getD "string")
    = (p.name, claimJsonType p.ann)
  rw [js_lookup_of_mem (parameters_clean f.params) p hnd hp]
  cases p.ann with
  | none => rfl
  | some a => cases a <;> rfl

/-- Claim C8 witness: the schema statement evaluated on a concrete
reflected function with a required text parameter, a defaulted whole
number parameter, an unannotated required parameter, and two reserved
parameters. -/
theorem claim_C8_witness :
    (agent_callable_sig c8_rsearch c8_fn).required
      = ((parameters_clean c8_fn.params).filter
          (fun p => !p.has_default)).map PyParam.name
    ∧ (agent_callable_sig c8_rsearch c8_fn).properties.map
        (fun kv => (kv.1, kv.2.type))
      = (parameters_clean c8_fn.params).map
          (fun p => (p.name, claimJsonType p.ann)) :=
  claim_C8_schema c8_fn c8_rsearch (by decide)

theorem contentSel_absent (d : Delta) (h : d.content = StrField.absent) :
    contentSel d = none := by
  obtain ⟨r, fcd, cf⟩ := d
  change cf = StrField.absent at h
  subst h
  rfl

theorem contentSel_null (d : Delta) (h : d.content = StrField.null) :
    contentSel d = none := by
  obtain ⟨r, fcd, cf⟩ := d
  change cf = StrField.null at h
  subst h
  rfl

theorem contentSel_str (d : Delta) (s : String)
    (h : d.content = StrField.str s) : contentSel d = some s := by
  obtain ⟨r, fcd, cf⟩ := d
  change cf = StrField.str s at h
  subst h
  rfl

theorem processDelta_content (acc : StreamAcc) (d : Delta) :
    (processDelta acc d).content = contentStep acc.content d.content := by
  obtain ⟨r, fcd, cf⟩ := d
  cases cf <;> cases r <;> cases fcd <;>
    simp only [processDelta, contentStep, apply_ite StreamAcc.content]

theorem processDelta_fc (acc : StreamAcc) (d : Delta) :
    (processDelta acc d).function_call
      = (d.function_call.getD []).foldl
          (fun f kv => fcUpdate f kv.1 kv.2) acc.function_call := by
  obtain ⟨r, fcd, cf⟩ := d
  cases cf <;> cases r <;> cases fcd <;>
    simp only [processDelta, Option.getD, apply_ite StreamAcc.function_call,
      List.foldl_nil, ite_self]

theorem foldl_processDelta_content (ds : List Delta) (acc : StreamAcc) :
    (ds.foldl processDelta acc).content
      = contentFold acc.content (contentFrags ds) := by
  induction ds generalizing acc with
  | nil => rfl
  | cons d rest ih =>
      rw [List.foldl_cons, ih, processDelta_content]
      cases hcf : d.content with
      | absent =>
          simp only [contentFrags]
          rw [List.filterMap_cons_none (contentSel_absent d hcf)]
          rfl
      | null =>
          simp only [contentFrags]
          rw [List.filterMap_cons_none (contentSel_null d hcf)]
          rfl
      | str s =>
          simp only [contentFrags]
          rw [List.filterMap_cons_some (contentSel_str d s hcf)]
          have hr : contentFold acc.content
              (s :: rest.filterMap contentSel)
              = if acc.content.length = 0 ∧ s = "\n\n" then
                  contentFold acc.content (rest.filterMap contentSel)
                else contentFold (acc.content ++ s)
                  (rest.filterMap contentSel) := rfl
          have hl : contentStep acc.content (StrField.str s)
              = if acc.content.length = 0 ∧ s = "\n\n" then acc.content
                else acc.content ++ s := rfl
          rw [hr, hl]
          by_cases hc : acc.content.length = 0 ∧ s = "\n\n"
          · rw [if_pos hc, if_pos hc]
          · rw [if_neg hc, if_neg hc]

theorem strJoin_append (a b : List String) :
    strJoin (a ++ b) = strJoin a ++ strJoin b := by
  induction a with
  | nil => rfl
  | cons c rest ih =>
      rw [List.cons_append, strJoin, strJoin, ih, String.append_assoc]

theorem str_length_ne_zero (s : String) (h : s ≠ "") : s.length ≠ 0 := by
  intro hlen
  apply h
  cases s with
  | mk data =>
      cases data with
      | nil => rfl
      | cons c cs =>
          change cs.length + 1 = 0 at hlen
          exact absurd hlen (Nat.succ_ne_zero _)

theorem contentFold_of_ne_empty (cs : List String) :
    ∀ acc : String, acc.length ≠ 0 →
      contentFold acc cs = acc ++ strJoin cs := by
  induction cs with
  | nil =>
      intro acc _
      rw [strJoin, String.append_empty]
      rfl
  | cons c rest ih =>
      intro acc h
      show (if acc.length = 0 ∧ c = "\n\n" then contentFold acc rest
        else contentFold (acc ++ c) rest) = acc ++ strJoin (c :: rest)
      rw [if_neg (fun hc => h hc.1)]
      rw [ih (acc ++ c) (by rw [String.length_append]; omega)]
      rw [strJoin, String.append_assoc]

theorem contentFold_empty_acc (frs : List String) :
    contentFold "" frs
      = strJoin (frs.drop
          (frs.findIdx (fun c => !(c == "" || c == "\n\n")))) := by
  induction frs with
  | nil => rfl
  | cons c rest ih =>
      show (if ("" : String).length = 0 ∧ c = "\n\n" then
          contentFold "" rest
        else contentFold ("" ++ c) rest) = _
      rw [List.findIdx_cons]
      by_cases hc : c = "\n\n"
      · rw [if_pos ⟨rfl, hc⟩, ih]
        have hp : (!(c == "" || c == "\n\n")) = false := by
          subst hc
          rfl
        rw [hp]
        rw [show cond false 0 ((rest.findIdx
          (fun c => !(c == "" || c == "\n\n"))) + 1)
          = (rest.findIdx (fun c => !(c == "" || c == "\n\n"))) + 1
          from rfl]
        rw [List.drop_succ_cons]
      · by_cases he : c = ""
        · rw [if_neg (fun hcc => hc hcc.2)]
          rw [show ("" : String) ++ c = c from by
            cases c with | mk l => rfl]
          subst he
          rw [ih]
          have hp : (!(("" : String) == "" || ("" : String) == "\n\n"))
              = false := rfl
          rw [hp]
          rw [show cond false 0 ((rest.findIdx
            (fun c => !(c == "" || c == "\n\n"))) + 1)
            = (rest.findIdx (fun c => !(c == "" || c == "\n\n"))) + 1
            from rfl]
          rw [List.drop_succ_cons]
        · rw [if_neg (fun hcc => hc hcc.2)]
          rw [show ("" : String) ++ c = c from by
            cases c with | mk l => rfl]
          rw [contentFold_of_ne_empty rest c (str_length_ne_zero c he)]
          have hp : (!(c == "" || c == "\n\n")) = true := by
            have h1 : (c == "") = false := beq_eq_false_iff_ne.mpr he
            have h2 : (c == "\n\n") = false := beq_eq_false_iff_ne.mpr hc
            rw [h1, h2]
            rfl
          rw [hp]
          rw [show cond true 0 ((rest.findIdx
            (fun c => !(c == "" || c == "\n\n"))) + 1) = 0 from rfl]
          rw [List.drop_zero, strJoin]

theorem lookup_some_of_any (k : String) (f : List (String × String))
    (h : f.any (fun kv => kv.1 == k) = true) :
    ∃ s, List.lookup k f = some s := by
  induction f with
  | nil => simp at h
  | cons kv rest ih =>
      by_cases hk : kv.1 = k
      · refine ⟨kv.2, ?_⟩
        rw [List.lookup_cons]
        have htrue : (k == kv.1) = true := by simp [hk]
        rw [htrue]
      · rw [List.any_cons] at h
        have hpkv : (kv.1 == k) = false := beq_eq_false_iff_ne.mpr hk
        rw [hpkv, Bool.false_or] at h
        obtain ⟨s, hs⟩ := ih h
        refine ⟨s, ?_⟩
        have hbeq : (k == kv.1) = false :=
          beq_eq_false_iff_ne.mpr (fun he => hk he.symm)
        rw [List.lookup_cons, hbeq]
        exact hs

theorem lookup_map_concat (k val : String) (f : List (String × String)) :
    List.lookup k
      (f.map (fun kv => if kv.1 = k then (kv.1, kv.2 ++ val) else kv))
      = Option.map (fun s => s ++ val) (List.lookup k f) := by
  induction f with
  | nil => rfl
  | cons kv rest ih =>
      rw [List.map_cons]
      by_cases hk : kv.1 = k
      · rw [if_pos hk]
        have htrue : (k == kv.1) = true := by simp [hk]
        rw [List.lookup_cons, htrue,
          show List.lookup k (kv :: rest)
            = match k == kv.1 with
              | true => some kv.2
              | false => List.lookup k rest from List.lookup_cons,
          htrue]
        rfl
      · rw [if_neg hk]
        have hbeq : (k == kv.1) = false :=
          beq_eq_false_iff_ne.mpr (fun he => hk he.symm)
        rw [List.lookup_cons, hbeq,
          show List.lookup k (kv :: rest)
            = match k == kv.1 with
              | true => some kv.2
              | false => List.lookup k rest from List.lookup_cons,
          hbeq]
        exact ih

theorem lookup_map_concat_ne (k key val : String) (hne : key ≠ k)
    (f : List (String × String)) :
    List.lookup k
      (f.map (fun kv => if kv.1 = key then (kv.1, kv.2 ++ val) else kv))
      = List.lookup k f := by
  induction f with
  | nil => rfl
  | cons kv rest ih =>
      rw [List.map_cons]
      by_cases hk : kv.1 = key
      · rw [if_pos hk]
        have hbeq : (k == kv.1) = false :=
          beq_eq_false_iff_ne.mpr (fun he => hne (he.trans hk).symm)
        rw [List.lookup_cons, hbeq,
          show List.lookup k (kv :: rest)
            = match k == kv.1 with
              | true => some kv.2
              | false => List.lookup k rest from List.lookup_cons,
          hbeq]
        exact ih
      · rw [if_neg hk]
        cases hbeq : (k == kv.1) with
        | true =>
            rw [List.lookup_cons, hbeq,
              show List.lookup k (kv :: rest)
                = match k == kv.1 with
                  | true => some kv.2
                  | false => List.lookup k rest from List.lookup_cons,
              hbeq]
        | false =>
            rw [List.lookup_cons, hbeq,
              show List.lookup k (kv :: rest)
                = match k == kv.1 with
                  | true => some kv.2
                  | false => List.lookup k rest from List.lookup_cons,
              hbeq]
            exact ih

theorem lookup_append_single_ne (k key val : String) (hne : key ≠ k)
    (f : List (String × String)) :
    List.lookup k (f ++ [(key, val)]) = List.lookup k f := by
  induction f with
  | nil =>
      rw [List.nil_append, List.lookup_cons,
        beq_eq_false_iff_ne.mpr (fun he => hne he.symm)]
  | cons kv rest ih =>
      rw [List.cons_append]
      cases hbeq : (k == kv.1) with
      | true =>
          rw [List.lookup_cons, hbeq,
            show List.lookup k (kv :: rest)
              = match k == kv.1 with
                | true => some kv.2
                | false => List.lookup k rest from List.lookup_cons,
            hbeq]
      | false =>
          rw [List.lookup_cons, hbeq,
            show List.lookup k (kv :: rest)
              = match k == kv.1 with
                | true => some kv.2
                | false => List.lookup k rest from List.lookup_cons,
            hbeq]
          exact ih

theorem lookup_fcUpdate (f : List (String × String)) (key val k : String) :
    List.lookup k (fcUpdate f key val)
      = if key = k then
          (match List.lookup k f with
           | none => some val
           | some s => some (s ++ val))
        else List.lookup k f := by
  rw [fcUpdate]
  by_cases hany : f.any (fun kv => kv.1 == key) = true
  · rw [if_pos hany]
    by_cases hkey : key = k
    · subst hkey
      rw [if_pos rfl, lookup_map_concat]
      obtain ⟨s, hs⟩ := lookup_some_of_any key f hany
      rw [hs]
      rfl
    · rw [if_neg hkey, lookup_map_concat_ne k key val hkey f]
  · rw [if_neg hany]
    have hf : f.any (fun kv => kv.1 == key) = false :=
      Bool.eq_false_iff.mpr hany
    by_cases hkey : key = k
    · subst hkey
      have hnone := lookup_none_of_not_any key f hf
      rw [if_pos rfl, hnone,
        lookup_append_of_none key f [(key, val)] hnone,
        List.lookup_cons]
      have htrue : (key == key) = true := by simp
      rw [htrue]
    · rw [if_neg hkey, lookup_append_single_ne k key val hkey f]

theorem mergeOpt_nil (x : Option String) : mergeOpt x [] = x := by
  cases x <;> rfl

theorem mergeOpt_some (s : String) (vs : List String) :
    mergeOpt (some s) vs = some (s ++ strJoin vs) := by
  cases vs with
  | nil => rw [mergeOpt, strJoin, String.append_empty]
  | cons v rest => rfl

theorem mergeOpt_none_eq (vs : List String) :
    mergeOpt none vs
      = match vs with
        | [] => none
        | vs => some (strJoin vs) := by
  cases vs <;> rfl

theorem lookup_foldl_fcUpdate (items : List (String × String)) :
    ∀ (f0 : List (String × String)) (k : String),
    List.lookup k (items.foldl (fun f kv => fcUpdate f kv.1 kv.2) f0)
      = mergeOpt (List.lookup k f0)
          ((items.filter (fun kv => kv.1 == k)).map Prod.snd) := by
  induction items with
  | nil =>
      intro f0 k
      rw [List.foldl_nil]
      cases List.lookup k f0 <;> rfl
  | cons kv rest ih =>
      intro f0 k
      rw [List.foldl_cons, ih (fcUpdate f0 kv.1 kv.2) k,
        lookup_fcUpdate f0 kv.1 kv.2 k]
      by_cases hkey : kv.1 = k
      · rw [if_pos hkey]
        rw [List.filter_cons_of_pos (by simp [hkey]), List.map_cons]
        cases hl : List.lookup k f0 with
        | none =>
            rw [mergeOpt_some, mergeOpt_none_eq]
            rfl
        | some s =>
            rw [mergeOpt_some, mergeOpt_some, strJoin,
              String.append_assoc]
      · rw [if_neg hkey]
        rw [List.filter_cons_of_neg (by
          simpa using beq_eq_false_iff_ne.mpr hkey)]

theorem fcVals_cons (d : Delta) (rest : List Delta) (k : String) :
    fcVals (d :: rest) k
      = ((d.function_call.getD []).filter
          (fun kv => kv.1 == k)).map Prod.snd ++ fcVals rest k := by
  rw [fcVals, fcVals, fcItems, fcItems, List.map_cons, List.flatten_cons,
    List.filter_append, List.map_append]

theorem mergeOpt_mergeOpt (x : Option String) (vs ws : List String) :
    mergeOpt (mergeOpt x vs) ws = mergeOpt x (vs ++ ws) := by
  cases vs with
  | nil => rw [List.nil_append, mergeOpt_nil]
  | cons v vrest =>
      cases x with
      | none =>
          rw [List.cons_append]
          rw [show mergeOpt none (v :: vrest)
            = some (strJoin (v :: vrest)) from rfl]
          rw [mergeOpt_some]
          rw [show mergeOpt none (v :: (vrest ++ ws))
            = some (strJoin (v :: (vrest ++ ws))) from rfl]
          simp only [strJoin, strJoin_append, String.append_assoc]
      | some s =>
          rw [List.cons_append]
          rw [show mergeOpt (some s) (v :: vrest)
            = some (s ++ strJoin (v :: vrest)) from rfl]
          rw [mergeOpt_some]
          rw [show mergeOpt (some s) (v :: (vrest ++ ws))
            = some (s ++ strJoin (v :: (vrest ++ ws))) from rfl]
          simp only [strJoin, strJoin_append, String.append_assoc]

theorem foldl_processDelta_fc (ds : List Delta) :
    ∀ (acc : StreamAcc) (k : String),
    List.lookup k ((ds.foldl processDelta acc).function_call)
      = mergeOpt (List.lookup k acc.function_call) (fcVals ds k) := by
  induction ds with
  | nil =>
      intro acc k
      rw [List.foldl_nil]
      cases List.lookup k acc.function_call <;> rfl
  | cons d rest ih =>
      intro acc k
      rw [List.foldl_cons, ih (processDelta acc d) k, processDelta_fc,
        lookup_foldl_fcUpdate, fcVals_cons, mergeOpt_mergeOpt]

theorem stream_fold_eq_flatten (resp : List (List Delta)) :
    stream_fold resp
      = (resp.flatten).foldl processDelta
          { role := "", content := "", function_call := [] } := by
  rw [stream_fold, List.foldl_flatten]

theorem fcField_some (m : StreamMessage) (l : List (String × String))
    (h : m.function_call = some l) (k : String) :
    fcField m k = List.lookup k l := by
  obtain ⟨r, c, f⟩ := m
  change f = some l at h
  subst h
  rfl

theorem fcField_none (m : StreamMessage) (h : m.function_call = none)
    (k : String) : fcField m k = none := by
  obtain ⟨r, c, f⟩ := m
  change f = none at h
  subst h
  rfl

/-- Claim C7: the message stream_chat_completion assembles has as content
the in-order concatenation of the content fragments, where absent and
empty fragments contribute nothing and a two-newline fragment is dropped
exactly when it arrives before any content has been accumulated
(everything from the first real fragment onward, two-newline fragments
included, is kept); and every function_call field (the name, the
arguments text, and any other key) equals the in-order concatenation of
the delta fragments of that field, being absent iff no fragment named it. -/
theorem claim_C7_stream_accumulation (resp : List (List Delta)) :
    (stream_chat_completion resp).content
      = spec_content (contentFrags resp.flatten)
    ∧ (∀ k, fcField (stream_chat_completion resp) k
        = spec_fc_field resp.flatten k) := by
  have hcontent : (stream_fold resp).content
      = contentFold "" (contentFrags resp.flatten) := by
    rw [stream_fold_eq_flatten, foldl_processDelta_content]
  have hfc0 : ∀ k, List.lookup k (stream_fold resp).function_call
      = mergeOpt none (fcVals resp.flatten k) := by
    intro k
    rw [stream_fold_eq_flatten, foldl_processDelta_fc]
    rfl
  have hmsg : (stream_chat_completion resp).function_call
      = if (stream_fold resp).function_call.length > 0
        then some ((stream_fold resp).function_call) else none := rfl
  have hspec : ∀ k, mergeOpt none (fcVals resp.flatten k)
      = spec_fc_field resp.flatten k := by
    intro k
    show mergeOpt none (fcVals resp.flatten k)
      = match fcVals resp.flatten k with
        | [] => none
        | vs => some (strJoin vs)
    cases fcVals resp.flatten k <;> rfl
  constructor
  · show (stream_fold resp).content = _
    rw [hcontent, contentFold_empty_acc]
    rfl
  · intro k
    by_cases hlen : (stream_fold resp).function_call.length > 0
    · have hsome : (stream_chat_completion resp).function_call
          = some ((stream_fold resp).function_call) := by
        rw [hmsg, if_pos hlen]
      rw [fcField_some (stream_chat_completion resp)
        ((stream_fold resp).function_call) hsome k, hfc0 k, hspec k]
    · have hnone : (stream_chat_completion resp).function_call = none := by
        rw [hmsg, if_neg hlen]
      have hnil : (stream_fold resp).function_call = [] := by
        cases hl : (stream_fold resp).function_call with
        | nil => rfl
        | cons kv rest =>
            rw [hl] at hlen
            exact absurd (by simp) hlen
      rw [fcField_none (stream_chat_completion resp) hnone k, ← hspec k]
      have hk := hfc0 k
      rw [hnil] at hk
      exact hk

theorem review_loop_eq_selected (useResp sufResp : Nat → Nat → String)
    (lastIdx : Nat) :
    ∀ (l : List (Nat × String)) (acc : List String),
    review_loop useResp sufResp lastIdx l acc
      = acc ++ selected useResp sufResp lastIdx l := by
  intro l
  induction l with
  | nil => intro acc; simp [review_loop, selected]
  | cons entry rest ih =>
      intro acc
      obtain ⟨idx, info⟩ := entry
      by_cases hacc : num_confirms / 2 + 1
          ≤ ((List.range num_confirms).map
              (fun j => yesVote (useResp idx j))).count true
      · by_cases hlt : idx < lastIdx
        · by_cases hsuf : num_confirms / 2 + 1
              ≤ ((List.range num_confirms).map
                  (fun q => yesVote (sufResp idx q))).count true
          · simp [review_loop, selected, acceptedFact, stopsAfter,
              yesCount, hacc, hlt, hsuf]
          · simp [review_loop, selected, acceptedFact, stopsAfter,
              yesCount, hacc, hlt, hsuf, ih, List.append_assoc]
        · simp [review_loop, selected, acceptedFact, stopsAfter,
            yesCount, hacc, hlt, ih, List.append_assoc]
      · simp [review_loop, selected, acceptedFact, stopsAfter,
          yesCount, hacc, ih]

theorem selected_subset (useResp sufResp : Nat → Nat → String)
    (lastIdx : Nat) :
    ∀ (l : List (Nat × String)) (x : String),
    x ∈ selected useResp sufResp lastIdx l → x ∈ l.map Prod.snd := by
  intro l
  induction l with
  | nil => intro x hx; simp [selected] at hx
  | cons entry rest ih =>
      intro x hx
      obtain ⟨idx, info⟩ := entry
      simp only [selected] at hx
      rw [List.map_cons]
      by_cases hacc : acceptedFact useResp idx = true
      · rw [if_pos hacc] at hx
        by_cases hstop : stopsAfter useResp sufResp lastIdx idx = true
        · rw [if_pos hstop] at hx
          rw [List.mem_singleton.mp hx]
          exact List.mem_cons_self _ _
        · rw [if_neg hstop] at hx
          rcases List.mem_cons.mp hx with h | h
          · rw [h]; exact List.mem_cons_self _ _
          · exact List.mem_cons_of_mem _ (ih x h)
      · rw [if_neg hacc] at hx
        exact List.mem_cons_of_mem _ (ih x hx)

theorem selected_mem_iff (useResp sufResp : Nat → Nat → String)
    (lastIdx : Nat) :
    ∀ (l : List (Nat × String)), (l.map Prod.snd).Nodup →
      (l.map Prod.fst).Pairwise (· < ·) →
      ∀ idx info, (idx, info) ∈ l →
      (∀ j p, (j, p) ∈ l → j < idx →
        stopsAfter useResp sufResp lastIdx j = false) →
      (info ∈ selected useResp sufResp lastIdx l
        ↔ acceptedFact useResp idx = true) := by
  intro l
  induction l with
  | nil =>
      intro _ _ idx info hmem
      simp at hmem
  | cons entry rest ih =>
      intro hnd hpw idx info hmem hreach
      obtain ⟨i0, p0⟩ := entry
      rw [List.map_cons, List.nodup_cons] at hnd
      obtain ⟨hp0, hndrest⟩ := hnd
      rw [List.map_cons, List.pairwise_cons] at hpw
      obtain ⟨hlt0, hpwrest⟩ := hpw
      rcases List.mem_cons.mp hmem with heq | hmem2
      · cases heq
        by_cases hacc : acceptedFact useResp idx = true
        · constructor
          · intro _; exact hacc
          · intro _
            simp only [selected]
            rw [if_pos hacc]
            by_cases hstop : stopsAfter useResp sufResp lastIdx idx = true
            · rw [if_pos hstop]
              exact List.mem_singleton.mpr rfl
            · rw [if_neg hstop]
              exact List.mem_cons_self _ _
        · constructor
          · intro hmemsel
            exfalso
            simp only [selected] at hmemsel
            rw [if_neg hacc] at hmemsel
            exact hp0 (selected_subset useResp sufResp lastIdx rest
              info hmemsel)
          · intro hacc2
            exact absurd hacc2 hacc
      · have hi0lt : i0 < idx :=
          hlt0 idx (List.mem_map_of_mem Prod.fst hmem2)
        have hstop0 : stopsAfter useResp sufResp lastIdx i0 = false :=
          hreach i0 p0 (List.mem_cons_self _ _) hi0lt
        have hrec := ih hndrest hpwrest idx info hmem2
          (fun j p hj hlt => hreach j p (List.mem_cons_of_mem _ hj) hlt)
        simp only [selected]
        by_cases hacc0 : acceptedFact useResp i0 = true
        · rw [if_pos hacc0, if_neg (by rw [hstop0]; simp)]
          have hne : info ≠ p0 := by
            intro he
            apply hp0
            rw [← he]
            exact List.mem_map.mpr ⟨(idx, info), hmem2, rfl⟩
          rw [List.mem_cons]
          constructor
          · rintro (h | h)
            · exact absurd h hne
            · exact hrec.mp h
          · intro ha
            exact Or.inr (hrec.mpr ha)
        · rw [if_neg hacc0]
          exact hrec

theorem mem_enumFrom_of_lt {α : Type} :
    ∀ (l : List α) (n i : Nat) (h : i < l.length),
    (n + i, l.get ⟨i, h⟩) ∈ l.enumFrom n := by
  intro l
  induction l with
  | nil => intro n i h; simp at h
  | cons x rest ih =>
      intro n i h
      cases i with
      | zero => simp [List.enumFrom_cons]
      | succ i2 =>
          rw [List.enumFrom_cons]
          apply List.mem_cons_of_mem
          have harith : n + (i2 + 1) = (n + 1) + i2 := by omega
          rw [harith]
          exact ih (n + 1) i2 (by simpa using h)

/-- Claim C6: in Database.review_info with num_confirms 5, for every fact
the review reaches (no earlier sufficiency vote stopped the loop), the
fact ends up in the accumulated useful-info list iff at least 3 of its 5
usefulness probe responses, lower-cased, start with y; the threshold is
floor(num_confirms / 2) + 1 = 3, and in particular a fact with exactly 2
affirmative votes is rejected. -/
theorem claim_C6_review_majority (useResp sufResp : Nat → Nat → String)
    (idx : Nat) (hidx : idx < info_list.length)
    (hreach : ∀ j, j < idx →
      stopsAfter useResp sufResp (info_list.length - 1) j = false) :
    (info_list.get ⟨idx, hidx⟩ ∈ review_info useResp sufResp
      ↔ num_confirms / 2 + 1 ≤ yesCount useResp idx)
    ∧ num_confirms / 2 + 1 = 3
    ∧ (yesCount useResp idx = 2 →
        info_list.get ⟨idx, hidx⟩ ∉ review_info useResp sufResp) := by
  have hmem : (idx, info_list.get ⟨idx, hidx⟩) ∈ info_list.enum := by
    have h0 := mem_enumFrom_of_lt info_list 0 idx hidx
    rw [Nat.zero_add] at h0
    exact h0
  have hmain : info_list.get ⟨idx, hidx⟩ ∈ review_info useResp sufResp
      ↔ acceptedFact useResp idx = true := by
    rw [review_info, review_loop_eq_selected, List.nil_append]
    exact selected_mem_iff useResp sufResp (info_list.length - 1)
      info_list.enum (by decide) (by decide) idx
      (info_list.get ⟨idx, hidx⟩) hmem
      (fun j p hj hlt => hreach j hlt)
  have hdec : (acceptedFact useResp idx = true)
      ↔ (num_confirms / 2 + 1 ≤ yesCount useResp idx) := by
    rw [acceptedFact]
    exact decide_eq_true_iff
  refine ⟨hmain.trans hdec, by decide, ?_⟩
  intro h2 hmemr
  have h3 := (hmain.trans hdec).mp hmemr
  rw [h2] at h3
  exact absurd h3 (by decide)

/-- Claim C6 witness: with probes that answer yes three times for the
first fact and no everywhere else, the majority statement evaluated at
the first fact. -/
theorem claim_C6_witness :
    (info_list.get ⟨0, by decide⟩ ∈ review_info c6_use c6_suf
      ↔ num_confirms / 2 + 1 ≤ yesCount c6_use 0)
    ∧ num_confirms / 2 + 1 = 3
    ∧ (yesCount c6_use 0 = 2 →
        info_list.get ⟨0, by decide⟩ ∉ review_info c6_use c6_suf) :=
  claim_C6_review_majority c6_use c6_suf 0 (by decide)
    (fun j hj => absurd hj (Nat.not_lt_zero j))

end BotPlayers
